import Mathlib

/-!
Verification of the PeerBridge P2P VPN client core (UDP transport, frame
codec, system state machine, packet bridge) against its specification.

The definitions below are a shallow embedding of the C++ sources:
* the frame codec and receive-path validation of `UDPNetwork`
  (`NetworkingModule`, lines concatenated into `src/client/src/P2PSystem.cpp`),
* `SystemStateManager` / `PeerConnectionInfo` (`systemstatemanager.cpp`),
* the packet bridge of `P2PSystem` (`forwardPacketToPeer`,
  `deliverPacketToTun`).

Machine integers are modelled as `Nat` with explicit `% 2^32` where the
C++ performs 32-bit arithmetic; byte buffers are `List Nat` whose elements
are below 256 (the C++ buffers are `std::vector<uint8_t>`, so receive-side
bytes are always in range; where a theorem needs the bound it is a
hypothesis).
-/

namespace PeerBridge

/-- Wire constant `MAGIC_NUMBER` from `NetworkingModule.hpp`. -/
def MAGIC_NUMBER : Nat := 0x12345678

/-- Wire constant `PROTOCOL_VERSION` from `NetworkingModule.hpp`. -/
def PROTOCOL_VERSION : Nat := 1

/-- Constant `MAX_PACKET_SIZE` (max UDP packet size) from `NetworkingModule.hpp`. -/
def MAX_PACKET_SIZE : Nat := 65507

/-- The packet-type enum `UDPNetwork::PacketType` from `NetworkingModule.hpp`. -/
inductive PacketType where
  | HOLE_PUNCH
  | HEARTBEAT
  | MESSAGE
  | ACK
  | DISCONNECT
deriving DecidableEq, Repr

/-- The wire byte of each packet type, as assigned in `NetworkingModule.hpp`
(`HOLE_PUNCH = 0x01, HEARTBEAT = 0x02, MESSAGE = 0x03, ACK = 0x04,
DISCONNECT = 0x05`). -/
def PacketType.toByte : PacketType → Nat
  | .HOLE_PUNCH => 0x01
  | .HEARTBEAT => 0x02
  | .MESSAGE => 0x03
  | .ACK => 0x04
  | .DISCONNECT => 0x05

/-- Big-endian serialization of a 32-bit value into four bytes, exactly the
byte stores `(v >> 24) & 0xFF, (v >> 16) & 0xFF, (v >> 8) & 0xFF, v & 0xFF`
used by `UDPNetwork::attachCustomHeader` and `UDPNetwork::sendMessage`. -/
def be32 (n : Nat) : List Nat :=
  [(n >>> 24) % 256, (n >>> 16) % 256, (n >>> 8) % 256, n % 256]

/-- Big-endian serialization of a 16-bit value (the `version` field). -/
def be16 (n : Nat) : List Nat := [(n >>> 8) % 256, n % 256]

/-- Big-endian recomposition `(b0 << 24) | (b1 << 16) | (b2 << 8) | b3` as
computed by `UDPNetwork::processReceivedData`; for bytes below 256 the
C++ bitwise-or of disjoint ranges equals this sum. -/
def be32val (b0 b1 b2 b3 : Nat) : Nat :=
  b0 * 16777216 + b1 * 65536 + b2 * 256 + b3

/-- Big-endian recomposition `(b0 << 8) | b1` (the `version` field read). -/
def be16val (b0 b1 : Nat) : Nat := b0 * 256 + b1

/-- A decoded frame: packet type, sequence number, and (for `MESSAGE`) the
payload; control frames carry an empty payload. -/
structure Frame where
  ptype : PacketType
  seq : Nat
  payload : List Nat
deriving DecidableEq, Repr

/-- Encoding of an outbound frame. `UDPNetwork` builds every outbound packet
as a zero-initialized `std::vector<uint8_t>` (16 bytes for control frames,
`16 + payload` bytes for `MESSAGE`), then `attachCustomHeader` writes magic,
version, type byte and big-endian sequence (byte 7 stays zero), and
`sendMessage` additionally writes `msg_len = payload.size()` into bytes
12..16 and copies the payload after the header. For control frames bytes
12..16 remain zero. -/
def encodeFrame (t : PacketType) (seq : Nat) (payload : List Nat) : List Nat :=
  be32 MAGIC_NUMBER ++ be16 PROTOCOL_VERSION ++ [t.toByte, 0] ++ be32 seq ++
    be32 (if t = .MESSAGE then payload.length else 0) ++
    (if t = .MESSAGE then payload else [])

/-- Decoding, i.e. the pure validation/extraction performed by
`UDPNetwork::processReceivedData` on a received buffer: require at least 16
bytes, magic `0x12345678`, version `1`, a known type byte, and for `MESSAGE`
the length check `16 + msg_len > bytesTransferred → drop`, where the C++
computes `16 + msg_len` in unsigned 32-bit arithmetic, hence the `% 2^32`.
The buffer length is `16 + rest.length`. The payload is the `msg_len`-byte
`memcpy` from offset 16; NOTE: the model truncates the copy at the end of
the received bytes (`List.take`), while the C++ `memcpy` would read past the
received data whenever `msg_len` exceeds the remaining bytes — see the C2
theorem, which exhibits exactly such an accepted buffer. -/
def decodeFrame : List Nat → Option Frame
  | b0 :: b1 :: b2 :: b3 :: b4 :: b5 :: b6 :: _b7 :: b8 :: b9 :: b10 :: b11 ::
      b12 :: b13 :: b14 :: b15 :: rest =>
    if be32val b0 b1 b2 b3 ≠ MAGIC_NUMBER then none
    else if be16val b4 b5 ≠ PROTOCOL_VERSION then none
    else if b6 = 0x01 then some ⟨.HOLE_PUNCH, be32val b8 b9 b10 b11, []⟩
    else if b6 = 0x02 then some ⟨.HEARTBEAT, be32val b8 b9 b10 b11, []⟩
    else if b6 = 0x05 then some ⟨.DISCONNECT, be32val b8 b9 b10 b11, []⟩
    else if b6 = 0x03 then
      let msgLen := be32val b12 b13 b14 b15
      if (16 + msgLen) % 4294967296 > 16 + rest.length then none
      else some ⟨.MESSAGE, be32val b8 b9 b10 b11, rest.take msgLen⟩
    else if b6 = 0x04 then some ⟨.ACK, be32val b8 b9 b10 b11, []⟩
    else none
  | _ => none

/-- The system states of `SystemStateManager` (`systemstatemanager.hpp`). -/
inductive SystemState where
  | IDLE
  | CONNECTING
  | CONNECTED
  | SHUTTING_DOWN
deriving DecidableEq, Repr, Fintype

/-- `SystemStateManager::isValidTransition` (`systemstatemanager.cpp`): the
switch over the source state. -/
def isValidTransition : SystemState → SystemState → Bool
  | .IDLE, t => t = .IDLE || t = .CONNECTING || t = .SHUTTING_DOWN
  | .CONNECTING, t => t = .CONNECTED || t = .IDLE || t = .SHUTTING_DOWN
  | .CONNECTED, t => t = .CONNECTED || t = .IDLE || t = .SHUTTING_DOWN
  | .SHUTTING_DOWN, t => t = .SHUTTING_DOWN

/-- `SystemStateManager::setState`: a requested transition is applied iff
`isValidTransition` accepts it, otherwise the state is left unchanged
(the C++ logs a warning and returns). -/
def setState (current target : SystemState) : SystemState :=
  if isValidTransition current target then target else current

/-- The transition table exactly as §3 of the specification enumerates it
(spec wording, for comparison with `isValidTransition`):
IDLE → {IDLE, CONNECTING, SHUTTING_DOWN}; CONNECTING → {CONNECTED, IDLE,
SHUTTING_DOWN}; CONNECTED → {CONNECTED, IDLE, SHUTTING_DOWN};
SHUTTING_DOWN → {SHUTTING_DOWN}. -/
def specTransitionTable : List (SystemState × SystemState) :=
  [(.IDLE, .IDLE), (.IDLE, .CONNECTING), (.IDLE, .SHUTTING_DOWN),
   (.CONNECTING, .CONNECTED), (.CONNECTING, .IDLE), (.CONNECTING, .SHUTTING_DOWN),
   (.CONNECTED, .CONNECTED), (.CONNECTED, .IDLE), (.CONNECTED, .SHUTTING_DOWN),
   (.SHUTTING_DOWN, .SHUTTING_DOWN)]

/-- `utils::uint32ToIp` (repository utility header): renders a 32-bit address
as dotted-decimal, emitting `(ip >> (8 * (3 - i))) & 0xFF` for i = 0..3
separated by dots. -/
def uint32ToIp (ip : Nat) : String :=
  toString ((ip >>> 24) % 256) ++ "." ++ toString ((ip >>> 16) % 256) ++ "." ++
    toString ((ip >>> 8) % 256) ++ "." ++ toString (ip % 256)

/-- Constant `P2PSystem::HOST_IP` (`P2PSystem.hpp`). -/
def HOST_IP : String := "10.0.0.1"

/-- Constant `P2PSystem::CLIENT_IP` (`P2PSystem.hpp`). -/
def CLIENT_IP : String := "10.0.0.2"

/-- The destination IP parsed big-endian from bytes 16..20 of an IPv4
packet, as both bridge functions compute it
(`(packet[16] << 24) | (packet[17] << 16) | (packet[18] << 8) | packet[19]`). -/
def dstIpOf (packet : List Nat) : Nat :=
  be32val (packet.getD 16 0) (packet.getD 17 0) (packet.getD 18 0) (packet.getD 19 0)

/-- `P2PSystem::forwardPacketToPeer` (the outbound bridge filter): classify
the destination and drop unless it is for the peer, broadcast, or multicast;
returning `true` models reaching the `networkModule->sendMessage(packet)`
call (the packet is handed to the transport unmodified). -/
def forwardPacketToPeer (peerVirtualIp : String) (packet : List Nat) : Bool :=
  let dstIp := dstIpOf packet
  let dstIpStr := uint32ToIp dstIp
  let isForPeer := dstIpStr == peerVirtualIp
  let isBroadcast := dstIpStr == "10.0.0.255" || dstIpStr == "255.255.255.255"
  let isMulticast := dstIp >>> 28 == 14
  if !isForPeer && !isBroadcast && !isMulticast then false
  else true

/-- `P2PSystem::handlePacketFromTun`: forward to the outbound bridge only
when the buffer has at least `sizeof(IPPacket)` = 20 bytes and its first
nibble is 4 (IPv4). -/
def handlePacketFromTun (peerVirtualIp : String) (packet : List Nat) : Bool :=
  if 20 ≤ packet.length ∧ (packet.getD 0 0) >>> 4 = 4 then
    forwardPacketToPeer peerVirtualIp packet
  else false

/-- `P2PSystem::deliverPacketToTun` (the inbound bridge filter): drop when
the tunnel interface is unavailable or not running, otherwise deliver iff
the destination is us, broadcast, or multicast; returning `true` models
reaching the `tunInterface->sendPacket(packet)` call. -/
def deliverPacketToTun (tunRunning : Bool) (localVirtualIp : String) (packet : List Nat) : Bool :=
  if !tunRunning then false
  else
    let dstIp := dstIpOf packet
    let dstIpStr := uint32ToIp dstIp
    let isForUs := dstIpStr == localVirtualIp
    let isBroadcast := dstIpStr == "10.0.0.255" || dstIpStr == "255.255.255.255"
    let isMulticast := dstIp >>> 28 == 14
    if !isForUs && !isBroadcast && !isMulticast then false
    else true

/-- `P2PSystem::handleNetworkData`: deliver to the inbound bridge only when
the buffer has at least 20 bytes and its first nibble is 4. -/
def handleNetworkData (tunRunning : Bool) (localVirtualIp : String) (packet : List Nat) : Bool :=
  if 20 ≤ packet.length ∧ (packet.getD 0 0) >>> 4 = 4 then
    deliverPacketToTun tunRunning localVirtualIp packet
  else false

/-- Decimal value of a digit string, used to invert `toString` on octets. -/
def digitsVal (l : List Char) : Nat :=
  l.foldl (fun acc c => acc * 10 + (c.toNat - 48)) 0

/-- The network events of `systemstatemanager.hpp`. -/
inductive NetworkEvent where
  | PEER_CONNECTED
  | ALL_PEERS_DISCONNECTED
  | SHUTDOWN_REQUESTED
deriving DecidableEq, Repr

/-- `NetworkEventData`: an event with its optional endpoint string (the
C++ `std::variant<std::string, std::monostate>` payload; the timestamp
field is irrelevant to the claims and omitted). -/
structure NetworkEventData where
  event : NetworkEvent
  endpoint : Option String
deriving DecidableEq, Repr

/-- Classification of the `boost::system::error_code` values the handlers
distinguish: `operation_aborted`; `would_block`/`try_again`/WSAEWOULDBLOCK
(collapsed, the code always tests the three together); and any other,
fatal, error. `none` models success. -/
inductive AsioError where
  | operationAborted
  | wouldBlock
  | fatal
deriving DecidableEq, Repr

/-- Combined state of a `UDPNetwork` instance and the shared
`SystemStateManager` / `PeerConnectionInfo` it manipulates:
`running`, `nextSeqNumber` (the `std::atomic<uint32_t>` counter, kept below
2^32), `pendingAcks` (the key set of the `sequence → send_time` map, kept
duplicate-free), `connected` and `lastActivity` (the `PeerConnectionInfo`,
time in whole seconds as `duration_cast<seconds>` measures it),
`peerEndpoint` (= `currentPeerEndpoint` as a string), `sysState` and
`events` (the shared state manager: `current_state_` and the FIFO event
queue, queued at the tail), `out` (every frame handed to `async_send_to`,
in order), and `delivered` (every payload passed to `onMessageCallback`). -/
structure UDPNetworkState where
  running : Bool
  nextSeqNumber : Nat
  pendingAcks : List Nat
  connected : Bool
  lastActivity : Nat
  peerEndpoint : Option String
  sysState : SystemState
  events : List NetworkEventData
  out : List Frame
  delivered : List (List Nat)
deriving DecidableEq, Repr

/-- The state after `UDPNetwork`'s constructor: `running(false)`,
`nextSeqNumber(0)`, `PeerConnectionInfo` starts disconnected with
`last_activity` set at construction (time 0), state manager starts IDLE
with an empty queue. -/
def initialState : UDPNetworkState :=
  { running := false, nextSeqNumber := 0, pendingAcks := [], connected := false,
    lastActivity := 0, peerEndpoint := none, sysState := .IDLE, events := [],
    out := [], delivered := [] }

/-- The sequence-number effect of `UDPNetwork::attachCustomHeader`:
`seq = seqOpt.value_or(nextSeqNumber++)`. `value_or` evaluates its argument
eagerly, so the 32-bit counter is post-incremented (wrapping at 2^32) on
every call; when an explicit sequence is supplied (the ACK echo) the freshly
allocated value is discarded and the echo is used instead. The header bytes
it writes are modelled by `encodeFrame`. -/
def attachCustomHeader (s : UDPNetworkState) (seqOpt : Option Nat) : Nat × UDPNetworkState :=
  let s1 := { s with nextSeqNumber := (s.nextSeqNumber + 1) % 4294967296 }
  match seqOpt with
  | some q => (q, s1)
  | none => (s.nextSeqNumber, s1)

/-- `SystemStateManager::queueEvent` (used via
`UDPNetwork::notifyConnectionEvent`): push at the FIFO tail. -/
def queueEvent (s : UDPNetworkState) (e : NetworkEventData) : UDPNetworkState :=
  { s with events := s.events ++ [e] }

/-- `UDPNetwork::sendMessage`: refuse when not running (the socket pointer,
moved in at construction, is never null); refuse when
`16 + payload > MAX_PACKET_SIZE`; otherwise allocate the next sequence,
record it in `pendingAcks` (map insert) and dispatch the framed `MESSAGE`
asynchronously. -/
def sendMessage (s : UDPNetworkState) (payload : List Nat) : Bool × UDPNetworkState :=
  if ¬s.running then (false, s)
  else if 16 + payload.length > MAX_PACKET_SIZE then (false, s)
  else
    let (seq, s1) := attachCustomHeader s none
    let s2 := { s1 with
      pendingAcks := if seq ∈ s1.pendingAcks then s1.pendingAcks else s1.pendingAcks ++ [seq] }
    (true, { s2 with out := s2.out ++ [⟨.MESSAGE, seq, payload⟩] })

/-- `UDPNetwork::sendHolePunchPacket`: a 16-byte `HOLE_PUNCH` frame with a
freshly allocated sequence, sent asynchronously (errors in its completion
handler are only logged). -/
def sendHolePunchPacket (s : UDPNetworkState) : UDPNetworkState :=
  let (seq, s1) := attachCustomHeader s none
  { s1 with out := s1.out ++ [⟨.HOLE_PUNCH, seq, []⟩] }

/-- `UDPNetwork::sendDisconnectNotification`: no-op when not connected,
otherwise build one `DISCONNECT` frame (one sequence allocation) and send
it three times, ignoring errors. -/
def sendDisconnectNotification (s : UDPNetworkState) : UDPNetworkState :=
  if ¬s.connected then s
  else
    let (seq, s1) := attachCustomHeader s none
    { s1 with out := s1.out ++
        [⟨.DISCONNECT, seq, []⟩, ⟨.DISCONNECT, seq, []⟩, ⟨.DISCONNECT, seq, []⟩] }

/-- `UDPNetwork::stopConnection`: notify the peer, clear `connected`, clear
`running`, stop the keep-alive timer (the cancelled timer invokes
`handleKeepAlive` with `operation_aborted`, a no-op), and request state
IDLE through the guarded `setState`. -/
def stopConnection (s : UDPNetworkState) : UDPNetworkState :=
  let s1 := sendDisconnectNotification s
  let s2 := { s1 with connected := false, running := false }
  { s2 with sysState := setState s2.sysState .IDLE }

/-- `UDPNetwork::handleDisconnect`: return immediately when the peer is
already marked disconnected; otherwise clear `connected` and queue
`ALL_PEERS_DISCONNECTED`. -/
def handleDisconnect (s : UDPNetworkState) : UDPNetworkState :=
  if ¬s.connected then s
  else queueEvent { s with connected := false } ⟨.ALL_PEERS_DISCONNECTED, none⟩

/-- `PeerConnectionInfo::hasTimedOut`: `(elapsed > timeout_seconds) &&
connected`, with `elapsed` the whole seconds since `last_activity`. -/
def hasTimedOut (s : UDPNetworkState) (now : Nat) (timeoutSeconds : Nat) : Bool :=
  decide (now - s.lastActivity > timeoutSeconds) && s.connected

/-- `UDPNetwork::checkAllConnections`: on `hasTimedOut(20)` mark the peer
disconnected and queue `ALL_PEERS_DISCONNECTED`. -/
def checkAllConnections (s : UDPNetworkState) (now : Nat) : UDPNetworkState :=
  if hasTimedOut s now 20 then
    queueEvent { s with connected := false } ⟨.ALL_PEERS_DISCONNECTED, none⟩
  else s

/-- `UDPNetwork::handleKeepAlive`: return on `operation_aborted` (timer
cancelled); return when not running; otherwise send one hole-punch and, if
the peer is connected, run the timeout check; the timer re-arm carries no
state. -/
def handleKeepAlive (s : UDPNetworkState) (error : Option AsioError) (now : Nat) :
    UDPNetworkState :=
  match error with
  | some .operationAborted => s
  | _ =>
    if ¬s.running then s
    else
      let s1 := sendHolePunchPacket s
      if s1.connected then checkAllConnections s1 now else s1

/-- `UDPNetwork::handleSendComplete` for a `MESSAGE` with sequence `seq`:
on `would_block`/`try_again` drop the packet — erase it from `pendingAcks`
and do not retransmit; ignore `operation_aborted`; on any other error run
`handleDisconnect`; on success do nothing. -/
def handleSendComplete (s : UDPNetworkState) (error : Option AsioError) (seq : Nat) :
    UDPNetworkState :=
  match error with
  | none => s
  | some .wouldBlock => { s with pendingAcks := s.pendingAcks.erase seq }
  | some .operationAborted => s
  | some .fatal => handleDisconnect s

/-- `UDPNetwork::processReceivedData` on a received buffer of
`16 + rest.length` bytes from `sender` at time `now` (whole seconds):
validate size, magic and version (silent drop otherwise); refresh
`last_activity`; for every type byte other than DISCONNECT (0x05), consume
the packet when not running, and otherwise adopt the sender as the peer —
set `connected`, store the endpoint (`setConnected(true)` refreshes
activity again) and queue `PEER_CONNECTED(sender)` — when not yet
connected; then dispatch on the type byte: HOLE_PUNCH/HEARTBEAT do nothing
further, DISCONNECT runs `handleDisconnect`, MESSAGE checks
`16 + msg_len > size` in 32-bit arithmetic (hence the `% 2^32`) and on
success sends an `ACK` echoing the sequence — building that ACK calls
`attachCustomHeader`, whose eagerly evaluated `value_or` argument
post-increments `nextSeqNumber` even though the echo is used — and
delivers the `msg_len`-byte copy to the message callback (the model
truncates the copy at the received bytes where the C++ `memcpy` reads out
of bounds — see C2), ACK erases the echoed sequence from `pendingAcks`,
and an unknown type byte is logged and dropped. -/
def processReceivedData (s : UDPNetworkState) (now : Nat) (buf : List Nat)
    (sender : String) : UDPNetworkState :=
  match buf with
  | b0 :: b1 :: b2 :: b3 :: b4 :: b5 :: b6 :: _b7 :: b8 :: b9 :: b10 :: b11 ::
      b12 :: b13 :: b14 :: b15 :: rest =>
    if be32val b0 b1 b2 b3 ≠ MAGIC_NUMBER then s
    else if be16val b4 b5 ≠ PROTOCOL_VERSION then s
    else
      let seq := be32val b8 b9 b10 b11
      let s1 := { s with lastActivity := now }
      if b6 ≠ 0x05 ∧ ¬s1.running then s1
      else
        let s2 :=
          if b6 ≠ 0x05 ∧ ¬s1.connected then
            queueEvent
              { s1 with peerEndpoint := some sender, connected := true, lastActivity := now }
              ⟨.PEER_CONNECTED, some sender⟩
          else s1
        if b6 = 0x01 ∨ b6 = 0x02 then s2
        else if b6 = 0x05 then handleDisconnect s2
        else if b6 = 0x03 then
          let msgLen := be32val b12 b13 b14 b15
          if (16 + msgLen) % 4294967296 > 16 + rest.length then s2
          else
            { s2 with nextSeqNumber := (s2.nextSeqNumber + 1) % 4294967296,
                      out := s2.out ++ [⟨.ACK, seq, []⟩],
                      delivered := s2.delivered ++ [rest.take msgLen] }
        else if b6 = 0x04 then { s2 with pendingAcks := s2.pendingAcks.erase seq }
        else s2
  | _ => s

/-- How many fresh counter values one `processReceivedData` call consumes:
exactly one when the buffer is accepted as a `MESSAGE` and the `ACK` echo
is built (the `attachCustomHeader` call post-increments `nextSeqNumber`
even though the echoed sequence is used), zero on every other path. The
conditions mirror `processReceivedData`; the activity refresh does not
change `running`, so the guard reads `s.running` directly. -/
def recvAllocs (s : UDPNetworkState) (buf : List Nat) : Nat :=
  match buf with
  | b0 :: b1 :: b2 :: b3 :: b4 :: b5 :: b6 :: _b7 :: _b8 :: _b9 :: _b10 :: _b11 ::
      b12 :: b13 :: b14 :: b15 :: rest =>
    if be32val b0 b1 b2 b3 ≠ MAGIC_NUMBER then 0
    else if be16val b4 b5 ≠ PROTOCOL_VERSION then 0
    else if b6 ≠ 0x05 ∧ ¬s.running then 0
    else if b6 = 0x03 then
      if (16 + be32val b12 b13 b14 b15) % 4294967296 > 16 + rest.length then 0 else 1
    else 0
  | _ => 0

/-- The `running := true` effect of `UDPNetwork::startListening` (socket
options, the I/O thread and the async receive loop carry no model state). -/
def startListening (s : UDPNetworkState) : UDPNetworkState :=
  { s with running := true }

/-- `UDPNetwork::connectToPeer` + `startHolePunchingProcess`: refuse when
already connected; otherwise record the peer endpoint, set `running`,
request state CONNECTING, and send five hole-punch frames (then start the
keep-alive timer). -/
def connectToPeer (s : UDPNetworkState) (endpoint : String) : Bool × UDPNetworkState :=
  if s.connected then (false, s)
  else
    let s1 := { s with peerEndpoint := some endpoint, running := true,
                       sysState := setState s.sysState .CONNECTING }
    (true, sendHolePunchPacket (sendHolePunchPacket (sendHolePunchPacket
      (sendHolePunchPacket (sendHolePunchPacket s1)))))

/-- One step of the transport: the handlers the reactor and the public API
can invoke after start-up. `connectPeer` is the only step that starts a
new connection (`startListening` is the other entry point that sets
`running`, and is not a step). -/
inductive TransportOp where
  | sendMsg (payload : List Nat)
  | recv (now : Nat) (buf : List Nat) (sender : String)
  | keepAlive (error : Option AsioError) (now : Nat)
  | sendComplete (error : Option AsioError) (seq : Nat)
  | stopConn
  | connectPeer (endpoint : String)
deriving Repr

/-- Interpretation of one transport step on the state. -/
def step (s : UDPNetworkState) : TransportOp → UDPNetworkState
  | .sendMsg p => (sendMessage s p).2
  | .recv now buf sender => processReceivedData s now buf sender
  | .keepAlive e now => handleKeepAlive s e now
  | .sendComplete e q => handleSendComplete s e q
  | .stopConn => stopConnection s
  | .connectPeer endpoint => (connectToPeer s endpoint).2

/-- Run a sequence of transport steps. -/
def run (s : UDPNetworkState) (ops : List TransportOp) : UDPNetworkState :=
  ops.foldl step s

/-- Whether a step starts a new connection (cf. C9: quiescence holds
"until a new connection is started"). -/
def TransportOp.startsConnection : TransportOp → Bool
  | .connectPeer _ => true
  | _ => false

/-- How many fresh sequence numbers (`nextSeqNumber++` in
`attachCustomHeader`) a step allocates from state `s`. -/
def stepAllocs (s : UDPNetworkState) : TransportOp → Nat
  | .sendMsg p => if s.running ∧ 16 + p.length ≤ MAX_PACKET_SIZE then 1 else 0
  | .recv _ buf _ => recvAllocs s buf
  | .keepAlive e _ =>
      match e with
      | some .operationAborted => 0
      | _ => if s.running then 1 else 0
  | .sendComplete _ _ => 0
  | .stopConn => if s.connected then 1 else 0
  | .connectPeer _ => if s.connected then 0 else 5

/-- Total fresh sequence allocations along a run. -/
def runAllocs (s : UDPNetworkState) : List TransportOp → Nat
  | [] => 0
  | op :: ops => stepAllocs s op + runAllocs (step s op) ops

/-- The sequence numbers of the outbound `MESSAGE` frames, in send order. -/
def msgSeqs (s : UDPNetworkState) : List Nat :=
  (s.out.filter (fun f => f.ptype == .MESSAGE)).map Frame.seq

/-- Number of `ALL_PEERS_DISCONNECTED` events queued so far. -/
def discCount (s : UDPNetworkState) : Nat :=
  (s.events.filter (fun e => e.event == .ALL_PEERS_DISCONNECTED)).length

theorem be32val_be32 (s : Nat) (h : s < 4294967296) :
    be32val ((s >>> 24) % 256) ((s >>> 16) % 256) ((s >>> 8) % 256) (s % 256) = s := by
  simp only [be32val, Nat.shiftRight_eq_div_pow]
  omega

theorem decode_encode (t : PacketType) (s : Nat) (p : List Nat)
    (hs : s < 4294967296) (hp : 16 + p.length ≤ MAX_PACKET_SIZE) :
    decodeFrame (encodeFrame t s p) = some ⟨t, s, if t = .MESSAGE then p else []⟩ := by
  have key : ∀ n : Nat, n < 4294967296 →
      n >>> 24 % 256 * 16777216 + n >>> 16 % 256 * 65536 + n >>> 8 % 256 * 256 + n % 256 = n := by
    intro n hn
    simp only [Nat.shiftRight_eq_div_pow]
    omega
  have hp2 : 16 + p.length ≤ 65507 := hp
  have hlen : p.length < 4294967296 := by omega
  have hmod : (16 + p.length) % 4294967296 = 16 + p.length :=
    Nat.mod_eq_of_lt (by omega)
  cases t <;>
    simp [encodeFrame, be32, be16, MAGIC_NUMBER, PROTOCOL_VERSION, PacketType.toByte,
      decodeFrame, be16val, be32val, key s hs, key p.length hlen, hmod, List.take_length]

theorem encodeFrame_ACK (q : Nat) :
    encodeFrame .ACK q [] =
      [0x12, 0x34, 0x56, 0x78, 0x00, 0x01, 0x04, 0x00,
       (q >>> 24) % 256, (q >>> 16) % 256, (q >>> 8) % 256, q % 256, 0, 0, 0, 0] := by
  simp [encodeFrame, be32, be16, MAGIC_NUMBER, PROTOCOL_VERSION, PacketType.toByte]

theorem encodeFrame_DISCONNECT (q : Nat) :
    encodeFrame .DISCONNECT q [] =
      [0x12, 0x34, 0x56, 0x78, 0x00, 0x01, 0x05, 0x00,
       (q >>> 24) % 256, (q >>> 16) % 256, (q >>> 8) % 256, q % 256, 0, 0, 0, 0] := by
  simp [encodeFrame, be32, be16, MAGIC_NUMBER, PROTOCOL_VERSION, PacketType.toByte]

theorem encodeFrame_MESSAGE (q : Nat) (p : List Nat) :
    encodeFrame .MESSAGE q p =
      [0x12, 0x34, 0x56, 0x78, 0x00, 0x01, 0x03, 0x00,
       (q >>> 24) % 256, (q >>> 16) % 256, (q >>> 8) % 256, q % 256,
       (p.length >>> 24) % 256, (p.length >>> 16) % 256, (p.length >>> 8) % 256,
       p.length % 256] ++ p := by
  simp [encodeFrame, be32, be16, MAGIC_NUMBER, PROTOCOL_VERSION, PacketType.toByte]

theorem magic_bytes_val : be32val 0x12 0x34 0x56 0x78 = MAGIC_NUMBER := by decide

theorem version_bytes_val : be16val 0x00 0x01 = PROTOCOL_VERSION := by decide

/-- C1. Frame codec round-trip: for every packet type, sequence `s < 2^32`
and payload `p` with `16 + len(p) ≤ 65507`, decoding the encoded frame
yields the same type, sequence and payload (control frames have no
payload); and concretely `encode(MESSAGE, seq = 7, payload = [0xAA, 0xBB])`
is the 18-byte buffer `12 34 56 78 00 01 03 00 00 00 00 07 00 00 00 02 AA BB`,
which decodes back to `{type := MESSAGE, seq := 7, payload := [0xAA, 0xBB]}`. -/
theorem C1_frame_codec_roundtrip :
    (∀ (t : PacketType) (s : Nat) (p : List Nat),
        s < 4294967296 → 16 + p.length ≤ MAX_PACKET_SIZE →
        decodeFrame (encodeFrame t s p) = some ⟨t, s, if t = .MESSAGE then p else []⟩) ∧
    encodeFrame .MESSAGE 7 [0xAA, 0xBB] =
      [0x12, 0x34, 0x56, 0x78, 0x00, 0x01, 0x03, 0x00,
       0x00, 0x00, 0x00, 0x07, 0x00, 0x00, 0x00, 0x02, 0xAA, 0xBB] ∧
    decodeFrame
      [0x12, 0x34, 0x56, 0x78, 0x00, 0x01, 0x03, 0x00,
       0x00, 0x00, 0x00, 0x07, 0x00, 0x00, 0x00, 0x02, 0xAA, 0xBB] =
      some ⟨.MESSAGE, 7, [0xAA, 0xBB]⟩ := by
  refine ⟨decode_encode, by decide, by decide⟩

/-- Witness for C1: the universal part applied at a concrete frame. -/
theorem C1_frame_codec_roundtrip_witness :
    decodeFrame (encodeFrame .HOLE_PUNCH 3 []) = some ⟨.HOLE_PUNCH, 3, []⟩ := by
  simpa using C1_frame_codec_roundtrip.1 .HOLE_PUNCH 3 [] (by norm_num) (by norm_num [MAX_PACKET_SIZE])

/-- C3. The state machine realizes exactly the specified transition table:
`isValidTransition` agrees with the table of §3, `setState` moves to the
target exactly when the pair is in the table and is a no-op otherwise, and
`SHUTTING_DOWN` is terminal: no sequence of `setState` requests leaves it. -/
theorem C3_state_machine_transitions :
    (∀ f t : SystemState, isValidTransition f t = true ↔ (f, t) ∈ specTransitionTable) ∧
    (∀ f t : SystemState, setState f t = if (f, t) ∈ specTransitionTable then t else f) ∧
    (∀ t : SystemState, setState .SHUTTING_DOWN t = .SHUTTING_DOWN) ∧
    (∀ l : List SystemState, l.foldl setState .SHUTTING_DOWN = .SHUTTING_DOWN) := by
  refine ⟨by decide, by decide, by decide, ?_⟩
  intro l
  induction l with
  | nil => rfl
  | cons a l ih =>
      have ha : setState .SHUTTING_DOWN a = .SHUTTING_DOWN := by cases a <;> decide
      simpa [List.foldl, ha] using ih

set_option maxRecDepth 8192 in
theorem octet_digitsVal : ∀ n : Fin 256, digitsVal (toString n.val).data = n.val := by decide

set_option maxRecDepth 8192 in
theorem octet_no_dot : ∀ n : Fin 256, ('.' : Char) ∉ (toString n.val).data := by decide

theorem toString_octet_inj {a b : Nat} (ha : a < 256) (hb : b < 256)
    (h : (toString a).data = (toString b).data) : a = b := by
  have h1 : digitsVal (toString a).data = a := octet_digitsVal ⟨a, ha⟩
  have h2 : digitsVal (toString b).data = b := octet_digitsVal ⟨b, hb⟩
  rw [h, h2] at h1
  exact h1.symm

theorem append_dot_inj : ∀ l1 l2 r1 r2 : List Char,
    ('.' : Char) ∉ l1 → ('.' : Char) ∉ l2 →
    l1 ++ '.' :: r1 = l2 ++ '.' :: r2 → l1 = l2 ∧ r1 = r2 := by
  intro l1
  induction l1 with
  | nil =>
      intro l2 r1 r2 _ h2 h
      cases l2 with
      | nil => simpa using h
      | cons b l2 =>
          simp only [List.nil_append, List.cons_append, List.cons.injEq] at h
          obtain ⟨hb, -⟩ := h
          exact absurd (hb ▸ List.mem_cons_self b l2) h2
  | cons a l1 ih =>
      intro l2 r1 r2 h1 h2 h
      cases l2 with
      | nil =>
          simp only [List.cons_append, List.nil_append, List.cons.injEq] at h
          obtain ⟨ha, -⟩ := h
          exact absurd (ha ▸ List.mem_cons_self a l1) h1
      | cons b l2 =>
          simp only [List.cons_append, List.cons.injEq] at h
          obtain ⟨hab, htail⟩ := h
          have hl1 : ('.' : Char) ∉ l1 := fun hx => h1 (List.mem_cons_of_mem a hx)
          have hl2 : ('.' : Char) ∉ l2 := fun hx => h2 (List.mem_cons_of_mem b hx)
          obtain ⟨he, hr⟩ := ih l2 r1 r2 hl1 hl2 htail
          exact ⟨by rw [hab, he], hr⟩

theorem dot_data : ("." : String).data = ['.'] := rfl

theorem uint32ToIp_inj {x y : Nat} (hx : x < 4294967296) (hy : y < 4294967296)
    (h : uint32ToIp x = uint32ToIp y) : x = y := by
  have m256 : ∀ n : Nat, n % 256 < 256 := fun n => Nat.mod_lt _ (by norm_num)
  have nd : ∀ n : Nat, n < 256 → ('.' : Char) ∉ (toString n).data :=
    fun n hn => octet_no_dot ⟨n, hn⟩
  have hdata : (uint32ToIp x).data = (uint32ToIp y).data := by rw [h]
  simp only [uint32ToIp, String.data_append, dot_data, List.append_assoc,
    List.singleton_append] at hdata
  obtain ⟨e0, h0⟩ := append_dot_inj _ _ _ _ (nd _ (m256 _)) (nd _ (m256 _)) hdata
  obtain ⟨e1, h1⟩ := append_dot_inj _ _ _ _ (nd _ (m256 _)) (nd _ (m256 _)) h0
  obtain ⟨e2, e3⟩ := append_dot_inj _ _ _ _ (nd _ (m256 _)) (nd _ (m256 _)) h1
  have q0 := toString_octet_inj (m256 _) (m256 _) e0
  have q1 := toString_octet_inj (m256 _) (m256 _) e1
  have q2 := toString_octet_inj (m256 _) (m256 _) e2
  have q3 := toString_octet_inj (m256 _) (m256 _) e3
  simp only [Nat.shiftRight_eq_div_pow] at q0 q1 q2
  omega

theorem forward_eq_or (p : String) (pkt : List Nat) :
    forwardPacketToPeer p pkt =
      ((uint32ToIp (dstIpOf pkt) == p) ||
        ((uint32ToIp (dstIpOf pkt) == "10.0.0.255") ||
          (uint32ToIp (dstIpOf pkt) == "255.255.255.255")) ||
        (dstIpOf pkt >>> 28 == 14)) := by
  simp only [forwardPacketToPeer]
  cases uint32ToIp (dstIpOf pkt) == p <;>
    cases uint32ToIp (dstIpOf pkt) == "10.0.0.255" <;>
      cases uint32ToIp (dstIpOf pkt) == "255.255.255.255" <;>
        cases dstIpOf pkt >>> 28 == 14 <;> rfl

theorem deliver_eq_forward (lip : String) (pkt : List Nat) :
    deliverPacketToTun true lip pkt = forwardPacketToPeer lip pkt := rfl

theorem dstIpOf_lt (packet : List Nat) (hlen : 20 ≤ packet.length)
    (hb : ∀ b ∈ packet, b < 256) : dstIpOf packet < 4294967296 := by
  have g : ∀ i, i < packet.length → packet.getD i 0 < 256 := by
    intro i hi
    apply hb
    rw [List.getD_eq_getElem packet 0 hi]
    exact List.getElem_mem hi
  have g16 := g 16 (by omega)
  have g17 := g 17 (by omega)
  have g18 := g 18 (by omega)
  have g19 := g 19 (by omega)
  simp only [dstIpOf, be32val]
  omega

theorem forward_iff (peerNum : Nat) (packet : List Nat) (hpeer : peerNum < 4294967296)
    (hlen : 20 ≤ packet.length) (hb : ∀ b ∈ packet, b < 256) :
    (forwardPacketToPeer (uint32ToIp peerNum) packet = true ↔
      dstIpOf packet = peerNum ∨ dstIpOf packet = 167772415 ∨
      dstIpOf packet = 4294967295 ∨ dstIpOf packet >>> 28 = 14) := by
  have hdst := dstIpOf_lt packet hlen hb
  have hb1 : ("10.0.0.255" : String) = uint32ToIp 167772415 := by decide
  have hb2 : ("255.255.255.255" : String) = uint32ToIp 4294967295 := by decide
  rw [forward_eq_or]
  constructor
  · intro hor
    simp only [Bool.or_eq_true, beq_iff_eq] at hor
    rcases hor with ((h | (h | h)) | h)
    · exact Or.inl (uint32ToIp_inj hdst hpeer h)
    · exact Or.inr (Or.inl (uint32ToIp_inj hdst (by norm_num) (h.trans hb1)))
    · exact Or.inr (Or.inr (Or.inl (uint32ToIp_inj hdst (by norm_num) (h.trans hb2))))
    · exact Or.inr (Or.inr (Or.inr h))
  · intro hor
    rcases hor with h | h | h | h <;>
      simp only [h, Bool.or_eq_true, beq_iff_eq, beq_self_eq_true] <;> tauto

/-- C4. Bridge filtering: for a buffer of length ≥ 20 whose first nibble
is 4 and whose destination is parsed big-endian from bytes 16..20, the
outbound bridge forwards iff the destination equals the peer virtual IP,
is `10.0.0.255` (= 167772415) or `255.255.255.255` (= 4294967295), or is
multicast (`dst >>> 28 = 14`); the inbound bridge (with the tunnel running)
delivers iff the destination equals the local virtual IP or is broadcast
or multicast; and concretely with `peer_virtual_ip = 10.0.0.2` a packet to
`224.0.2.60` is forwarded while a packet to `10.0.0.3` is dropped. -/
theorem C4_bridge_filtering :
    (∀ (peerNum : Nat) (packet : List Nat), peerNum < 4294967296 →
      20 ≤ packet.length → (∀ b ∈ packet, b < 256) → (packet.getD 0 0) >>> 4 = 4 →
      (handlePacketFromTun (uint32ToIp peerNum) packet = true ↔
        dstIpOf packet = peerNum ∨ dstIpOf packet = 167772415 ∨
        dstIpOf packet = 4294967295 ∨ dstIpOf packet >>> 28 = 14)) ∧
    (∀ (localNum : Nat) (packet : List Nat), localNum < 4294967296 →
      20 ≤ packet.length → (∀ b ∈ packet, b < 256) → (packet.getD 0 0) >>> 4 = 4 →
      (handleNetworkData true (uint32ToIp localNum) packet = true ↔
        dstIpOf packet = localNum ∨ dstIpOf packet = 167772415 ∨
        dstIpOf packet = 4294967295 ∨ dstIpOf packet >>> 28 = 14)) ∧
    handlePacketFromTun CLIENT_IP
      [0x45, 0, 0, 0, 0, 0, 0, 0, 0, 0, 0, 0, 10, 0, 0, 1, 224, 0, 2, 60] = true ∧
    handlePacketFromTun CLIENT_IP
      [0x45, 0, 0, 0, 0, 0, 0, 0, 0, 0, 0, 0, 10, 0, 0, 1, 10, 0, 0, 3] = false := by
  refine ⟨?_, ?_, by decide, by decide⟩
  · intro peerNum packet hpeer hlen hb hnib
    rw [handlePacketFromTun, if_pos ⟨hlen, hnib⟩]
    exact forward_iff peerNum packet hpeer hlen hb
  · intro localNum packet hlocal hlen hb hnib
    rw [handleNetworkData, if_pos ⟨hlen, hnib⟩, deliver_eq_forward]
    exact forward_iff localNum packet hlocal hlen hb

/-- Witness for C4: the outbound filter applied at peer `10.0.0.2`
(= 167772418) and the concrete multicast packet to `224.0.2.60`. -/
theorem C4_bridge_filtering_witness :
    handlePacketFromTun (uint32ToIp 167772418)
      [0x45, 0, 0, 0, 0, 0, 0, 0, 0, 0, 0, 0, 10, 0, 0, 1, 224, 0, 2, 60] = true := by
  have h := C4_bridge_filtering.1 167772418
    [0x45, 0, 0, 0, 0, 0, 0, 0, 0, 0, 0, 0, 10, 0, 0, 1, 224, 0, 2, 60]
    (by norm_num) (by decide) (by decide) (by decide)
  exact h.mpr (by decide)

@[simp]
theorem queueEvent_running (s : UDPNetworkState) (e : NetworkEventData) :
    (queueEvent s e).running = s.running := rfl

@[simp]
theorem queueEvent_nextSeqNumber (s : UDPNetworkState) (e : NetworkEventData) :
    (queueEvent s e).nextSeqNumber = s.nextSeqNumber := rfl

@[simp]
theorem queueEvent_pendingAcks (s : UDPNetworkState) (e : NetworkEventData) :
    (queueEvent s e).pendingAcks = s.pendingAcks := rfl

@[simp]
theorem queueEvent_connected (s : UDPNetworkState) (e : NetworkEventData) :
    (queueEvent s e).connected = s.connected := rfl

@[simp]
theorem queueEvent_lastActivity (s : UDPNetworkState) (e : NetworkEventData) :
    (queueEvent s e).lastActivity = s.lastActivity := rfl

@[simp]
theorem queueEvent_peerEndpoint (s : UDPNetworkState) (e : NetworkEventData) :
    (queueEvent s e).peerEndpoint = s.peerEndpoint := rfl

@[simp]
theorem queueEvent_out (s : UDPNetworkState) (e : NetworkEventData) :
    (queueEvent s e).out = s.out := rfl

@[simp]
theorem queueEvent_delivered (s : UDPNetworkState) (e : NetworkEventData) :
    (queueEvent s e).delivered = s.delivered := rfl

@[simp]
theorem queueEvent_events (s : UDPNetworkState) (e : NetworkEventData) :
    (queueEvent s e).events = s.events ++ [e] := rfl

@[simp]
theorem handleDisconnect_connected (s : UDPNetworkState) :
    (handleDisconnect s).connected = false := by
  unfold handleDisconnect
  split <;> simp_all

@[simp]
theorem handleDisconnect_lastActivity (s : UDPNetworkState) :
    (handleDisconnect s).lastActivity = s.lastActivity := by
  unfold handleDisconnect
  split <;> rfl

@[simp]
theorem handleDisconnect_out (s : UDPNetworkState) : (handleDisconnect s).out = s.out := by
  unfold handleDisconnect
  split <;> rfl

@[simp]
theorem handleDisconnect_nextSeqNumber (s : UDPNetworkState) :
    (handleDisconnect s).nextSeqNumber = s.nextSeqNumber := by
  unfold handleDisconnect
  split <;> rfl

@[simp]
theorem handleDisconnect_pendingAcks (s : UDPNetworkState) :
    (handleDisconnect s).pendingAcks = s.pendingAcks := by
  unfold handleDisconnect
  split <;> rfl

@[simp]
theorem handleDisconnect_running (s : UDPNetworkState) :
    (handleDisconnect s).running = s.running := by
  unfold handleDisconnect
  split <;> rfl

@[simp]
theorem handleDisconnect_peerEndpoint (s : UDPNetworkState) :
    (handleDisconnect s).peerEndpoint = s.peerEndpoint := by
  unfold handleDisconnect
  split <;> rfl

@[simp]
theorem handleDisconnect_delivered (s : UDPNetworkState) :
    (handleDisconnect s).delivered = s.delivered := by
  unfold handleDisconnect
  split <;> rfl

theorem handleDisconnect_events_of_connected (s : UDPNetworkState) (h : s.connected = true) :
    (handleDisconnect s).events = s.events ++ [⟨.ALL_PEERS_DISCONNECTED, none⟩] := by
  unfold handleDisconnect
  simp [h]

theorem handleDisconnect_of_not_connected (s : UDPNetworkState) (h : s.connected = false) :
    handleDisconnect s = s := by
  unfold handleDisconnect
  simp [h]

/-- C2. Exhibit of the decode-validation flaw (the claim is the spec's
safety property; the code violates it). First: the 16-byte datagram
`12 34 56 78 00 01 03 00 00 00 00 00 FF FF FF F0` carries
`msg_len = 0xFFFFFFF0 = 4294967280`, so the claim (and §4.1 of the spec)
requires a drop because `16 + msg_len` far exceeds the 16 received bytes —
but the C++ computes `16 + msg_len` in 32-bit arithmetic, which wraps to
`0 ≤ 16`, so the frame is accepted (`decodeFrame` returns `some`) and the
`memcpy` of `msg_len` bytes from a 16-byte datagram reads far past the
received data (the model truncates that copy; the bound violation is the
second conjunct) and the truncated payload is delivered to the message
callback. Second: a buffer with an unknown type byte (6) — which fails the
claim's "known type" check — still mutates connection state before the
dispatch switch: the sender is adopted, `connected` flips to true и a
`PEER_CONNECTED` event is queued, where the claim requires "discarded
without mutating connection state". -/
theorem C2_decode_validation_overflow :
    decodeFrame [0x12, 0x34, 0x56, 0x78, 0x00, 0x01, 0x03, 0x00,
        0x00, 0x00, 0x00, 0x00, 0xFF, 0xFF, 0xFF, 0xF0] =
      some ⟨.MESSAGE, 0, []⟩ ∧
    16 + be32val 0xFF 0xFF 0xFF 0xF0 >
      List.length [0x12, 0x34, 0x56, 0x78, 0x00, 0x01, 0x03, 0x00,
        0x00, 0x00, 0x00, 0x00, 0xFF, 0xFF, 0xFF, 0xF0] ∧
    (processReceivedData { initialState with running := true, connected := true } 5
        [0x12, 0x34, 0x56, 0x78, 0x00, 0x01, 0x03, 0x00,
         0x00, 0x00, 0x00, 0x00, 0xFF, 0xFF, 0xFF, 0xF0] "203.0.113.7").delivered = [[]] ∧
    (processReceivedData { initialState with running := true } 5
        [0x12, 0x34, 0x56, 0x78, 0x00, 0x01, 0x06, 0x00,
         0x00, 0x00, 0x00, 0x00, 0x00, 0x00, 0x00, 0x00] "203.0.113.7").connected = true ∧
    (processReceivedData { initialState with running := true } 5
        [0x12, 0x34, 0x56, 0x78, 0x00, 0x01, 0x06, 0x00,
         0x00, 0x00, 0x00, 0x00, 0x00, 0x00, 0x00, 0x00] "203.0.113.7").events =
      [⟨.PEER_CONNECTED, some "203.0.113.7"⟩] := by
  refine ⟨by decide, by decide, by decide, by decide, by decide⟩

/-- C5 (amended). Receive-path connection step, for every buffer passing
the magic and version checks: `last_activity` is refreshed on every path;
a frame whose type byte is not DISCONNECT, received while running and not
yet connected, adopts the sender as peer endpoint, sets `connected` and
queues exactly one `PEER_CONNECTED(sender)`; a DISCONNECT frame received
while the peer is marked connected clears `connected` and queues
`ALL_PEERS_DISCONNECTED` (the amendment: when the peer is already marked
disconnected, `handleDisconnect` is a no-op — see the counterexample); and
the consume-packet-if-not-running guard applies to every type byte except
DISCONNECT: when not running such a packet only refreshes activity. -/
theorem C5_receive_connection_step :
    ∀ (s : UDPNetworkState) (now : Nat) (sender : String)
      (b0 b1 b2 b3 b4 b5 b6 b7 b8 b9 b10 b11 b12 b13 b14 b15 : Nat) (rest : List Nat),
      be32val b0 b1 b2 b3 = MAGIC_NUMBER →
      be16val b4 b5 = PROTOCOL_VERSION →
      (let r := processReceivedData s now
          (b0 :: b1 :: b2 :: b3 :: b4 :: b5 :: b6 :: b7 :: b8 :: b9 :: b10 :: b11 ::
            b12 :: b13 :: b14 :: b15 :: rest) sender
       r.lastActivity = now ∧
       (b6 ≠ 0x05 → s.running = true → s.connected = false →
         r.connected = true ∧ r.peerEndpoint = some sender ∧
         r.events = s.events ++ [⟨.PEER_CONNECTED, some sender⟩]) ∧
       (b6 = 0x05 → s.connected = true →
         r.connected = false ∧ r.events = s.events ++ [⟨.ALL_PEERS_DISCONNECTED, none⟩]) ∧
       (b6 ≠ 0x05 → s.running = false → r = { s with lastActivity := now })) := by
  intro s now sender b0 b1 b2 b3 b4 b5 b6 b7 b8 b9 b10 b11 b12 b13 b14 b15 rest hmagic hversion
  refine ⟨?_, ?_, ?_, ?_⟩
  · simp only [processReceivedData, hmagic, hversion, ne_eq, not_true_eq_false, if_false,
      ite_false]
    repeat' split
    all_goals simp
  · intro hb6 hrun hconn
    simp only [processReceivedData, hmagic, hversion, ne_eq, not_true_eq_false, if_false,
      ite_false]
    repeat' split
    all_goals simp_all
  · intro hb6 hconn
    subst hb6
    have h1 : ({ s with lastActivity := now } : UDPNetworkState).connected = true := hconn
    simp [processReceivedData, hmagic, hversion, handleDisconnect_connected,
      handleDisconnect_events_of_connected _ h1]
  · intro hb6 hrun
    simp [processReceivedData, hmagic, hversion, hrun, hb6]

/-- Counterexample for C5 as stated: a DISCONNECT frame arriving while the
peer is not marked connected queues nothing — the events queue stays empty,
where the claim requires an `ALL_PEERS_DISCONNECTED` to be queued for every
DISCONNECT frame. -/
theorem C5_disconnect_counterexample :
    (processReceivedData { initialState with running := true } 9
        (encodeFrame .DISCONNECT 0 []) "198.51.100.2").events = [] := by
  decide

/-- Witness for C5: the adoption clause applied to a concrete HOLE_PUNCH
frame received while listening and unconnected. -/
theorem C5_receive_connection_step_witness :
    (processReceivedData { initialState with running := true } 4
        [0x12, 0x34, 0x56, 0x78, 0x00, 0x01, 0x01, 0x00,
         0x00, 0x00, 0x00, 0x01, 0x00, 0x00, 0x00, 0x00] "198.51.100.7").connected = true := by
  have h := C5_receive_connection_step { initialState with running := true } 4 "198.51.100.7"
    0x12 0x34 0x56 0x78 0x00 0x01 0x01 0x00 0x00 0x00 0x00 0x01 0x00 0x00 0x00 0x00 []
    (by decide) (by decide)
  exact (h.2.1 (by decide) rfl rfl).1

/-- C6. `sendMessage` contract and `pendingAcks` lifecycle: it fails when
the transport is not running; fails when `16 + len(payload) > 65507`;
otherwise succeeds, frames the payload as `MESSAGE` carrying the next
sequence, and records that sequence in `pendingAcks`. The entry is removed
when an `ACK` echoing the sequence is received, and when the send
completion reports `would_block`/`try_again` the packet is dropped and its
entry removed; the completion handler never emits a frame (no
retransmission). -/
theorem C6_send_contract :
    (∀ (s : UDPNetworkState) (p : List Nat), s.running = false →
      sendMessage s p = (false, s)) ∧
    (∀ (s : UDPNetworkState) (p : List Nat), 16 + p.length > MAX_PACKET_SIZE →
      sendMessage s p = (false, s)) ∧
    (∀ (s : UDPNetworkState) (p : List Nat), s.running = true →
      16 + p.length ≤ MAX_PACKET_SIZE →
      (sendMessage s p).1 = true ∧
      (sendMessage s p).2.out = s.out ++ [⟨.MESSAGE, s.nextSeqNumber, p⟩] ∧
      s.nextSeqNumber ∈ (sendMessage s p).2.pendingAcks) ∧
    (∀ (s : UDPNetworkState) (now : Nat) (sender : String) (q : Nat),
      s.running = true → q < 4294967296 →
      (processReceivedData s now (encodeFrame .ACK q []) sender).pendingAcks =
        s.pendingAcks.erase q) ∧
    (∀ (s : UDPNetworkState) (q : Nat),
      (handleSendComplete s (some .wouldBlock) q).pendingAcks = s.pendingAcks.erase q) ∧
    (∀ (s : UDPNetworkState) (e : Option AsioError) (q : Nat),
      (handleSendComplete s e q).out = s.out) := by
  refine ⟨?_, ?_, ?_, ?_, ?_, ?_⟩
  · intro s p hrun
    simp [sendMessage, hrun]
  · intro s p hbig
    by_cases hrun : s.running = true
    · simp [sendMessage, hrun, hbig]
    · simp only [Bool.not_eq_true] at hrun
      simp [sendMessage, hrun]
  · intro s p hrun hfit
    have hnot : ¬(16 + p.length > MAX_PACKET_SIZE) := not_lt.mpr hfit
    refine ⟨by simp [sendMessage, hrun, hnot, attachCustomHeader], ?_, ?_⟩
    · simp [sendMessage, hrun, hnot, attachCustomHeader]
    · simp only [sendMessage, hrun, hnot, attachCustomHeader, not_true_eq_false, if_false,
        ite_false]
      split <;> simp_all [List.mem_append]
  · intro s now sender q hrun hq
    have hkey := be32val_be32 q hq
    rw [encodeFrame_ACK]
    simp only [processReceivedData, magic_bytes_val, version_bytes_val, hkey]
    simp only [hrun]
    norm_num
    split <;> simp
  · intro s q
    simp [handleSendComplete]
  · intro s e q
    match e with
    | none => rfl
    | some .wouldBlock => rfl
    | some .operationAborted => rfl
    | some .fatal => simp [handleSendComplete]

/-- Witness for C6: the contract applied at a concrete listening state and
two-byte payload. -/
theorem C6_send_contract_witness :
    (sendMessage (startListening initialState) [0xAA, 0xBB]).1 = true := by
  exact (C6_send_contract.2.2.1 (startListening initialState) [0xAA, 0xBB] rfl
    (by norm_num [MAX_PACKET_SIZE])).1

/-- C7. Idle-timeout predicate: `hasTimedOut(t)` returns true iff the peer
is marked connected and strictly more than `t` (whole) seconds elapsed
since `last_activity`; and the keep-alive tick (while running) marks the
peer disconnected and queues `ALL_PEERS_DISCONNECTED` exactly when a
connected peer has been idle longer than the transport's 20-second
threshold (`checkAllConnections` calls `hasTimedOut(20)`). -/
theorem C7_idle_timeout :
    (∀ (s : UDPNetworkState) (now t : Nat),
      hasTimedOut s now t = true ↔ s.connected = true ∧ now - s.lastActivity > t) ∧
    (∀ (s : UDPNetworkState) (now : Nat), s.running = true →
      (((handleKeepAlive s none now).connected = false ∧
        (handleKeepAlive s none now).events =
          s.events ++ [⟨.ALL_PEERS_DISCONNECTED, none⟩]) ↔
       (s.connected = true ∧ now - s.lastActivity > 20))) := by
  constructor
  · intro s now t
    simp [hasTimedOut, and_comm]
  · intro s now hrun
    by_cases hc : s.connected = true
    · by_cases ht : now - s.lastActivity > 20
      · simp [handleKeepAlive, hrun, sendHolePunchPacket, attachCustomHeader,
          checkAllConnections, hasTimedOut, hc, ht]
      · simp [handleKeepAlive, hrun, sendHolePunchPacket, attachCustomHeader,
          checkAllConnections, hasTimedOut, hc, ht]
    · simp only [Bool.not_eq_true] at hc
      simp [handleKeepAlive, hrun, sendHolePunchPacket, attachCustomHeader,
        checkAllConnections, hasTimedOut, hc]

/-- Witness for C7: a connected peer idle for 21 seconds is timed out by
the keep-alive tick. -/
theorem C7_idle_timeout_witness :
    (handleKeepAlive
        { initialState with running := true, connected := true } none 21).events =
      [⟨.ALL_PEERS_DISCONNECTED, none⟩] := by
  have h := (C7_idle_timeout.2 { initialState with running := true, connected := true }
    21 rfl).mpr ⟨rfl, by norm_num [initialState]⟩
  simpa [initialState] using h.2

theorem mem_of_getLast?_mem {α : Type} {l : List α} {x : α} (h : x ∈ l.getLast?) : x ∈ l := by
  obtain ⟨hne, rfl⟩ := List.mem_getLast?_eq_getLast h
  exact List.getLast_mem hne

theorem recv_disconnect_eq (s : UDPNetworkState) (now q : Nat) (sender : String) :
    processReceivedData s now (encodeFrame .DISCONNECT q []) sender =
      handleDisconnect { s with lastActivity := now } := by
  rw [encodeFrame_DISCONNECT]
  simp only [processReceivedData, magic_bytes_val, version_bytes_val]
  norm_num

theorem discCount_handleDisconnect (s : UDPNetworkState) :
    discCount (handleDisconnect s) = discCount s + (if s.connected = true then 1 else 0) := by
  unfold handleDisconnect
  split <;> simp_all [discCount, List.filter_append]

theorem recv_disconnect_discCount (s : UDPNetworkState) (now q : Nat) (sender : String) :
    discCount (processReceivedData s now (encodeFrame .DISCONNECT q []) sender) =
      discCount s + (if s.connected = true then 1 else 0) ∧
    (processReceivedData s now (encodeFrame .DISCONNECT q []) sender).connected = false := by
  rw [recv_disconnect_eq]
  refine ⟨?_, handleDisconnect_connected _⟩
  rw [discCount_handleDisconnect]
  rfl

theorem iter_recv_disconnect (now q : Nat) (sender : String) :
    ∀ (n : Nat) (s : UDPNetworkState), 1 ≤ n →
      discCount ((fun st =>
          processReceivedData st now (encodeFrame .DISCONNECT q []) sender)^[n] s) =
        discCount s + (if s.connected = true then 1 else 0) ∧
      ((fun st =>
          processReceivedData st now (encodeFrame .DISCONNECT q []) sender)^[n] s).connected
        = false := by
  intro n
  induction n with
  | zero => intro s h; omega
  | succ n ih =>
      intro s _
      rcases Nat.eq_zero_or_pos n with hn | hn
      · subst hn
        simpa [Function.iterate_one] using recv_disconnect_discCount s now q sender
      · rw [Function.iterate_succ_apply']
        obtain ⟨hd, hc⟩ := ih s hn
        obtain ⟨hd2, hc2⟩ := recv_disconnect_discCount
          ((fun st => processReceivedData st now (encodeFrame .DISCONNECT q []) sender)^[n] s)
          now q sender
        refine ⟨?_, hc2⟩
        rw [hd2, hc, hd]
        simp

/-- C10. At most one `ALL_PEERS_DISCONNECTED` per connected episode:
`handleDisconnect` is the identity when the peer is already marked
disconnected; processing any positive number of (redundant) DISCONNECT
frames queues exactly one `ALL_PEERS_DISCONNECTED` when the peer was
connected and none otherwise; and a DISCONNECT frame arriving after the
idle-timeout check has already fired queues no second event. -/
theorem C10_single_disconnect_event :
    (∀ s : UDPNetworkState, s.connected = false → handleDisconnect s = s) ∧
    (∀ (s : UDPNetworkState) (now q : Nat) (sender : String) (n : Nat), 1 ≤ n →
      discCount ((fun st =>
          processReceivedData st now (encodeFrame .DISCONNECT q []) sender)^[n] s) =
        discCount s + (if s.connected = true then 1 else 0)) ∧
    (∀ (s : UDPNetworkState) (now now2 q : Nat) (sender : String),
      s.connected = true → now - s.lastActivity > 20 →
      discCount (processReceivedData (checkAllConnections s now) now2
          (encodeFrame .DISCONNECT q []) sender) = discCount s + 1) := by
  refine ⟨handleDisconnect_of_not_connected, ?_, ?_⟩
  · intro s now q sender n hn
    exact (iter_recv_disconnect now q sender n s hn).1
  · intro s now now2 q sender hc ht
    have htimed : hasTimedOut s now 20 = true := by simp [hasTimedOut, hc, ht]
    have hcheck : checkAllConnections s now =
        queueEvent { s with connected := false } ⟨.ALL_PEERS_DISCONNECTED, none⟩ := by
      simp [checkAllConnections, htimed]
    rw [hcheck]
    obtain ⟨hd, -⟩ := recv_disconnect_discCount
      (queueEvent { s with connected := false } ⟨.ALL_PEERS_DISCONNECTED, none⟩) now2 q sender
    rw [hd]
    simp [discCount, queueEvent, List.filter_append]

/-- Witness for C10: three redundant DISCONNECT frames from a connected
peer queue exactly one `ALL_PEERS_DISCONNECTED`. -/
theorem C10_single_disconnect_event_witness :
    discCount ((fun st =>
        processReceivedData st 7 (encodeFrame .DISCONNECT 2 []) "198.51.100.3")^[3]
      { initialState with running := true, connected := true }) = 1 := by
  have h := C10_single_disconnect_event.2.1
    { initialState with running := true, connected := true } 7 2 "198.51.100.3" 3 (by norm_num)
  simpa [initialState, discCount] using h

theorem recv_quiescent (s : UDPNetworkState) (now : Nat) (buf : List Nat) (sender : String)
    (hr : s.running = false) (hc : s.connected = false) :
    processReceivedData s now buf sender = s ∨
    processReceivedData s now buf sender = { s with lastActivity := now } := by
  unfold processReceivedData
  split
  case h_2 => exact Or.inl rfl
  case h_1 b0 b1 b2 b3 b4 b5 b6 b7 b8 b9 b10 b11 b12 b13 b14 b15 rest =>
    by_cases hm : be32val b0 b1 b2 b3 = MAGIC_NUMBER
    case neg => simp [hm]
    case pos =>
      by_cases hv : be16val b4 b5 = PROTOCOL_VERSION
      case neg => simp [hm, hv]
      case pos =>
        by_cases hb6 : b6 = 5
        · subst hb6
          simp [hm, hv, hr]
          exact Or.inr (handleDisconnect_of_not_connected _ hc)
        · simp [hm, hv, hr, hb6]

theorem quiescent_step (op : TransportOp) (s : UDPNetworkState)
    (hop : op.startsConnection = false) (hr : s.running = false) (hc : s.connected = false) :
    (step s op).out = s.out ∧ (step s op).running = false ∧ (step s op).connected = false := by
  cases op with
  | sendMsg p => simp [step, sendMessage, hr, hc]
  | recv now buf sender =>
      simp only [step]
      rcases recv_quiescent s now buf sender hr hc with h | h <;> rw [h] <;> exact ⟨rfl, hr, hc⟩
  | keepAlive e now =>
      cases e with
      | none => simp [step, handleKeepAlive, hr, hc]
      | some ae => cases ae <;> simp [step, handleKeepAlive, hr, hc]
  | sendComplete e q =>
      cases e with
      | none => exact ⟨rfl, hr, hc⟩
      | some ae =>
          cases ae <;> simp_all [step, handleSendComplete, handleDisconnect_of_not_connected s hc]
  | stopConn => simp [step, stopConnection, sendDisconnectNotification, hc]
  | connectPeer ep => simp [TransportOp.startsConnection] at hop

theorem quiescent_run (ops : List TransportOp) : ∀ s : UDPNetworkState,
    (∀ op ∈ ops, op.startsConnection = false) → s.running = false → s.connected = false →
    (run s ops).out = s.out ∧ (run s ops).running = false ∧ (run s ops).connected = false := by
  induction ops with
  | nil => intro s _ hr hc; exact ⟨rfl, hr, hc⟩
  | cons op ops ih =>
      intro s hops hr hc
      obtain ⟨ho, hr2, hc2⟩ := quiescent_step op s (hops op (List.mem_cons_self _ _)) hr hc
      have h2 := ih (step s op) (fun o hm => hops o (List.mem_cons_of_mem _ hm)) hr2 hc2
      simp only [run, List.foldl_cons] at h2 ⊢
      exact ⟨h2.1.trans ho, h2.2.1, h2.2.2⟩

/-- C9. Quiescence after `stopConnection`: it clears both the `running`
and `connected` flags; afterwards `sendMessage` fails; and no sequence of
transport steps that does not start a new connection (receive handlers,
keep-alive ticks, send completions, further stop requests, send attempts)
emits any frame at all — in particular no `MESSAGE`, `HOLE_PUNCH`, or
`ACK`: the sent-frame log `out` stays exactly as `stopConnection` left
it. -/
theorem C9_quiescence_after_stop :
    (∀ s : UDPNetworkState,
      (stopConnection s).running = false ∧ (stopConnection s).connected = false) ∧
    (∀ (s : UDPNetworkState) (p : List Nat), (sendMessage (stopConnection s) p).1 = false) ∧
    (∀ (s : UDPNetworkState) (ops : List TransportOp),
      (∀ op ∈ ops, op.startsConnection = false) →
      (run (stopConnection s) ops).out = (stopConnection s).out) := by
  have hstop : ∀ s : UDPNetworkState,
      (stopConnection s).running = false ∧ (stopConnection s).connected = false := by
    intro s
    simp [stopConnection]
  refine ⟨hstop, ?_, ?_⟩
  · intro s p
    simp [sendMessage, (hstop s).1]
  · intro s ops hops
    exact (quiescent_run ops (stopConnection s) hops (hstop s).1 (hstop s).2).1

/-- Witness for C9: after stopping a live connection, a keep-alive tick, a
send attempt and an inbound MESSAGE frame emit nothing. -/
theorem C9_quiescence_after_stop_witness :
    (run (stopConnection { initialState with running := true, connected := true })
        [.keepAlive none 30, .sendMsg [0x01],
         .recv 31 (encodeFrame .MESSAGE 0 [0x02]) "198.51.100.9"]).out =
      (stopConnection { initialState with running := true, connected := true }).out := by
  exact C9_quiescence_after_stop.2.2
    { initialState with running := true, connected := true }
    [.keepAlive none 30, .sendMsg [0x01],
     .recv 31 (encodeFrame .MESSAGE 0 [0x02]) "198.51.100.9"]
    (by decide)

@[simp]
theorem holePunch_beq_message : (PacketType.HOLE_PUNCH == PacketType.MESSAGE) = false := rfl

@[simp]
theorem ack_beq_message : (PacketType.ACK == PacketType.MESSAGE) = false := rfl

@[simp]
theorem disconnect_beq_message : (PacketType.DISCONNECT == PacketType.MESSAGE) = false := rfl

@[simp]
theorem message_beq_message : (PacketType.MESSAGE == PacketType.MESSAGE) = true := rfl

theorem sendHolePunchPacket_spec (s : UDPNetworkState) :
    (sendHolePunchPacket s).nextSeqNumber = (s.nextSeqNumber + 1) % 4294967296 ∧
    msgSeqs (sendHolePunchPacket s) = msgSeqs s := by
  constructor
  · simp [sendHolePunchPacket, attachCustomHeader]
  · simp [sendHolePunchPacket, attachCustomHeader, msgSeqs, List.filter_append]

theorem sendHolePunchPacket_pow (k : Nat) : ∀ s : UDPNetworkState,
    s.nextSeqNumber + k < 4294967296 →
    (sendHolePunchPacket^[k] s).nextSeqNumber = s.nextSeqNumber + k ∧
    msgSeqs (sendHolePunchPacket^[k] s) = msgSeqs s := by
  induction k with
  | zero => intro s h; simp
  | succ k ih =>
      intro s h
      rw [Function.iterate_succ_apply]
      have h1 : (sendHolePunchPacket s).nextSeqNumber = s.nextSeqNumber + 1 := by
        rw [(sendHolePunchPacket_spec s).1]
        exact Nat.mod_eq_of_lt (by omega)
      obtain ⟨g1, g2⟩ := ih (sendHolePunchPacket s) (by rw [h1]; omega)
      refine ⟨?_, g2.trans (sendHolePunchPacket_spec s).2⟩
      rw [g1, h1]
      omega

theorem checkAllConnections_seq (s : UDPNetworkState) (now : Nat) :
    (checkAllConnections s now).nextSeqNumber = s.nextSeqNumber ∧
    (checkAllConnections s now).out = s.out := by
  unfold checkAllConnections
  split <;> simp

theorem handleSendComplete_seq (s : UDPNetworkState) (e : Option AsioError) (q : Nat) :
    (handleSendComplete s e q).nextSeqNumber = s.nextSeqNumber ∧
    (handleSendComplete s e q).out = s.out := by
  cases e with
  | none => exact ⟨rfl, rfl⟩
  | some ae => cases ae <;> simp [handleSendComplete]

theorem recvAllocs_le_one (s : UDPNetworkState) (buf : List Nat) : recvAllocs s buf ≤ 1 := by
  unfold recvAllocs
  repeat' split
  all_goals omega

theorem recv_seq_spec (s : UDPNetworkState) (now : Nat) (buf : List Nat)
    (sender : String) :
    ((recvAllocs s buf = 0 ∧
      (processReceivedData s now buf sender).nextSeqNumber = s.nextSeqNumber) ∨
     (recvAllocs s buf = 1 ∧
      (processReceivedData s now buf sender).nextSeqNumber =
        (s.nextSeqNumber + 1) % 4294967296)) ∧
    msgSeqs (processReceivedData s now buf sender) = msgSeqs s := by
  rcases buf with _ | ⟨b0, _ | ⟨b1, _ | ⟨b2, _ | ⟨b3, _ | ⟨b4, _ | ⟨b5, _ | ⟨b6, _ | ⟨b7,
    _ | ⟨b8, _ | ⟨b9, _ | ⟨b10, _ | ⟨b11, _ | ⟨b12, _ | ⟨b13, _ | ⟨b14,
    _ | ⟨b15, rest⟩⟩⟩⟩⟩⟩⟩⟩⟩⟩⟩⟩⟩⟩⟩⟩
  all_goals try exact ⟨Or.inl ⟨rfl, rfl⟩, rfl⟩
  by_cases hm : be32val b0 b1 b2 b3 = MAGIC_NUMBER
  case neg => simp [processReceivedData, recvAllocs, hm]
  case pos =>
  by_cases hv : be16val b4 b5 = PROTOCOL_VERSION
  case neg => simp [processReceivedData, recvAllocs, hm, hv]
  case pos =>
  simp only [processReceivedData, recvAllocs, hm, hv, ne_eq, not_true_eq_false, if_false,
    ite_false]
  constructor
  · repeat' split
    all_goals simp_all
  · repeat' split
    all_goals simp_all [msgSeqs, List.filter_append]

theorem keepAlive_active_arm (s : UDPNetworkState) (now : Nat) (e : Option AsioError)
    (hrun : s.running = true) (he : e ≠ some AsioError.operationAborted) :
    handleKeepAlive s e now =
      if (sendHolePunchPacket s).connected then checkAllConnections (sendHolePunchPacket s) now
      else sendHolePunchPacket s := by
  match e with
  | none => simp [handleKeepAlive, hrun]
  | some .wouldBlock => simp [handleKeepAlive, hrun]
  | some .fatal => simp [handleKeepAlive, hrun]
  | some .operationAborted => exact absurd rfl he

theorem keepAlive_active_seq (s : UDPNetworkState) (now : Nat) (e : Option AsioError)
    (hrun : s.running = true) (he : e ≠ some AsioError.operationAborted) :
    (handleKeepAlive s e now).nextSeqNumber = (s.nextSeqNumber + 1) % 4294967296 ∧
    msgSeqs (handleKeepAlive s e now) = msgSeqs s := by
  rw [keepAlive_active_arm s now e hrun he]
  obtain ⟨h1, h2⟩ := sendHolePunchPacket_spec s
  by_cases hc : (sendHolePunchPacket s).connected = true
  · rw [if_pos hc]
    obtain ⟨g1, g2⟩ := checkAllConnections_seq (sendHolePunchPacket s) now
    have g3 : msgSeqs (checkAllConnections (sendHolePunchPacket s) now) =
        msgSeqs (sendHolePunchPacket s) := by
      unfold msgSeqs
      rw [g2]
    exact ⟨g1.trans h1, g3.trans h2⟩
  · rw [if_neg (by simpa using hc)]
    exact ⟨h1, h2⟩

theorem step_spec (s : UDPNetworkState) (op : TransportOp)
    (hw : s.nextSeqNumber + stepAllocs s op < 4294967296) :
    (step s op).nextSeqNumber = s.nextSeqNumber + stepAllocs s op ∧
    (msgSeqs (step s op) = msgSeqs s ∨
      msgSeqs (step s op) = msgSeqs s ++ [s.nextSeqNumber]) ∧
    (msgSeqs (step s op) = msgSeqs s ++ [s.nextSeqNumber] → 1 ≤ stepAllocs s op) := by
  cases op with
  | sendMsg p =>
      by_cases hrun : s.running = true
      · by_cases hfit : 16 + p.length ≤ MAX_PACKET_SIZE
        · have ha : stepAllocs s (.sendMsg p) = 1 := by simp [stepAllocs, hrun, hfit]
          have hnot : ¬(16 + p.length > MAX_PACKET_SIZE) := not_lt.mpr hfit
          rw [ha] at hw
          have f1 : (step s (.sendMsg p)).nextSeqNumber =
              (s.nextSeqNumber + 1) % 4294967296 := by
            simp [step, sendMessage, hrun, hnot, attachCustomHeader]
          have f2 : msgSeqs (step s (.sendMsg p)) = msgSeqs s ++ [s.nextSeqNumber] := by
            simp [step, sendMessage, hrun, hnot, attachCustomHeader, msgSeqs,
              List.filter_append]
          rw [ha, f1, Nat.mod_eq_of_lt (by omega)]
          exact ⟨rfl, Or.inr f2, fun _ => le_refl 1⟩
        · have ha : stepAllocs s (.sendMsg p) = 0 := by simp [stepAllocs, hfit]
          have hbig : 16 + p.length > MAX_PACKET_SIZE := not_le.mp hfit
          have f0 : step s (.sendMsg p) = s := by simp [step, sendMessage, hrun, hbig]
          rw [ha, f0]
          exact ⟨by omega, Or.inl rfl, fun h => absurd h (by simp)⟩
      · have hr : s.running = false := by simpa using hrun
        have ha : stepAllocs s (.sendMsg p) = 0 := by simp [stepAllocs, hr]
        have f0 : step s (.sendMsg p) = s := by simp [step, sendMessage, hr]
        rw [ha, f0]
        exact ⟨by omega, Or.inl rfl, fun h => absurd h (by simp)⟩
  | recv now buf sender =>
      have ha : stepAllocs s (.recv now buf sender) = recvAllocs s buf := rfl
      obtain ⟨hd, f2⟩ := recv_seq_spec s now buf sender
      rw [ha] at hw ⊢
      have hnomsg : ∀ h : msgSeqs (step s (.recv now buf sender)) =
          msgSeqs s ++ [s.nextSeqNumber], 1 ≤ recvAllocs s buf := by
        intro h
        rw [show step s (.recv now buf sender) = processReceivedData s now buf sender from rfl,
          f2] at h
        exact absurd h (by simp)
      rcases hd with ⟨h0, hseq⟩ | ⟨h1, hseq⟩
      · rw [h0]
        refine ⟨by simpa [step] using hseq, Or.inl (by simpa [step] using f2), ?_⟩
        intro h
        have h2 := hnomsg h
        omega
      · rw [h1] at hw ⊢
        refine ⟨?_, Or.inl (by simpa [step] using f2), fun _ => le_refl 1⟩
        rw [show (step s (.recv now buf sender)).nextSeqNumber =
            (processReceivedData s now buf sender).nextSeqNumber from rfl, hseq]
        exact Nat.mod_eq_of_lt (by omega)
  | keepAlive e now =>
      by_cases habort : e = some AsioError.operationAborted
      · subst habort
        have f0 : step s (.keepAlive (some .operationAborted) now) = s := rfl
        have ha : stepAllocs s (.keepAlive (some .operationAborted) now) = 0 := rfl
        rw [ha, f0]
        exact ⟨by omega, Or.inl rfl, fun h => absurd h (by simp)⟩
      · by_cases hrun : s.running = true
        · have ha : stepAllocs s (.keepAlive e now) = 1 := by
            match e with
            | none => simp [stepAllocs, hrun]
            | some .wouldBlock => simp [stepAllocs, hrun]
            | some .fatal => simp [stepAllocs, hrun]
            | some .operationAborted => exact absurd rfl habort
          rw [ha] at hw
          obtain ⟨f1, f2⟩ := keepAlive_active_seq s now e hrun habort
          rw [ha]
          refine ⟨?_, Or.inl (by simpa [step] using f2), fun _ => le_refl 1⟩
          rw [show (step s (.keepAlive e now)).nextSeqNumber =
              (handleKeepAlive s e now).nextSeqNumber from rfl, f1]
          exact Nat.mod_eq_of_lt (by omega)
        · have hr : s.running = false := by simpa using hrun
          have ha : stepAllocs s (.keepAlive e now) = 0 := by
            match e with
            | none => simp [stepAllocs, hr]
            | some .wouldBlock => simp [stepAllocs, hr]
            | some .fatal => simp [stepAllocs, hr]
            | some .operationAborted => exact absurd rfl habort
          have f0 : step s (.keepAlive e now) = s := by
            match e with
            | none => simp [step, handleKeepAlive, hr]
            | some .wouldBlock => simp [step, handleKeepAlive, hr]
            | some .fatal => simp [step, handleKeepAlive, hr]
            | some .operationAborted => exact absurd rfl habort
          rw [ha, f0]
          exact ⟨by omega, Or.inl rfl, fun h => absurd h (by simp)⟩
  | sendComplete e q =>
      obtain ⟨f1, f2⟩ := handleSendComplete_seq s e q
      have g2 : msgSeqs (handleSendComplete s e q) = msgSeqs s := by
        unfold msgSeqs
        rw [f2]
      have ha : stepAllocs s (.sendComplete e q) = 0 := rfl
      rw [ha]
      refine ⟨by simpa [step] using f1, Or.inl (by simpa [step] using g2), ?_⟩
      intro h
      rw [show step s (.sendComplete e q) = handleSendComplete s e q from rfl, g2] at h
      exact absurd h (by simp)
  | stopConn =>
      by_cases hc : s.connected = true
      · have ha : stepAllocs s .stopConn = 1 := by simp [stepAllocs, hc]
        rw [ha] at hw
        have f1 : (step s .stopConn).nextSeqNumber = (s.nextSeqNumber + 1) % 4294967296 := by
          simp [step, stopConnection, sendDisconnectNotification, hc, attachCustomHeader]
        have f2 : msgSeqs (step s .stopConn) = msgSeqs s := by
          simp [step, stopConnection, sendDisconnectNotification, hc, attachCustomHeader,
            msgSeqs, List.filter_append]
        rw [ha, f1, Nat.mod_eq_of_lt (by omega)]
        exact ⟨rfl, Or.inl f2, fun _ => le_refl 1⟩
      · have hc2 : s.connected = false := by simpa using hc
        have ha : stepAllocs s .stopConn = 0 := by simp [stepAllocs, hc2]
        have f1 : (step s .stopConn).nextSeqNumber = s.nextSeqNumber := by
          simp [step, stopConnection, sendDisconnectNotification, hc2]
        have f2 : msgSeqs (step s .stopConn) = msgSeqs s := by
          simp [step, stopConnection, sendDisconnectNotification, hc2, msgSeqs]
        rw [ha, f1, f2]
        exact ⟨by omega, Or.inl rfl, fun h => absurd h (by simp)⟩
  | connectPeer ep =>
      by_cases hc : s.connected = true
      · have ha : stepAllocs s (.connectPeer ep) = 0 := by simp [stepAllocs, hc]
        have f0 : step s (.connectPeer ep) = s := by simp [step, connectToPeer, hc]
        rw [ha, f0]
        exact ⟨by omega, Or.inl rfl, fun h => absurd h (by simp)⟩
      · have hc2 : s.connected = false := by simpa using hc
        have ha : stepAllocs s (.connectPeer ep) = 5 := by simp [stepAllocs, hc2]
        rw [ha] at hw
        have hstep : step s (.connectPeer ep) = sendHolePunchPacket^[5]
            { s with peerEndpoint := some ep, running := true,
                     sysState := setState s.sysState .CONNECTING } := by
          show (connectToPeer s ep).2 = _
          rw [connectToPeer, if_neg (by simp [hc2])]
          rfl
        obtain ⟨g1, g2⟩ := sendHolePunchPacket_pow 5
          { s with peerEndpoint := some ep, running := true,
                   sysState := setState s.sysState .CONNECTING } (by simpa using hw)
        rw [ha, hstep]
        refine ⟨by simpa using g1, Or.inl ?_, fun _ => by omega⟩
        rw [g2]
        rfl

theorem run_seq_mono : ∀ (ops : List TransportOp) (s : UDPNetworkState),
    s.nextSeqNumber + runAllocs s ops < 4294967296 →
    List.Chain' (· < ·) (msgSeqs s) →
    (∀ x ∈ msgSeqs s, x < s.nextSeqNumber) →
    (run s ops).nextSeqNumber = s.nextSeqNumber + runAllocs s ops ∧
    List.Chain' (· < ·) (msgSeqs (run s ops)) ∧
    ∀ x ∈ msgSeqs (run s ops), x < (run s ops).nextSeqNumber := by
  intro ops
  induction ops with
  | nil =>
      intro s hw hch hbd
      exact ⟨by simp [run, runAllocs], hch, hbd⟩
  | cons op ops ih =>
      intro s hw hch hbd
      have hsplit : runAllocs s (op :: ops) = stepAllocs s op + runAllocs (step s op) ops := rfl
      rw [hsplit] at hw
      obtain ⟨hn, hms, himp⟩ := step_spec s op (by omega)
      have hch2 : List.Chain' (· < ·) (msgSeqs (step s op)) := by
        rcases hms with h | h
        · rw [h]; exact hch
        · rw [h, List.chain'_append]
          refine ⟨hch, List.chain'_singleton _, ?_⟩
          intro x hx y hy
          simp only [List.head?_cons, Option.mem_def, Option.some.injEq] at hy
          subst hy
          exact hbd x (mem_of_getLast?_mem hx)
      have hbd2 : ∀ x ∈ msgSeqs (step s op), x < (step s op).nextSeqNumber := by
        rcases hms with h | h
        · rw [h, hn]
          intro x hx
          have := hbd x hx
          omega
        · rw [h, hn]
          intro x hx
          rcases List.mem_append.mp hx with hx | hx
          · have := hbd x hx
            omega
          · have h1 := himp h
            simp only [List.mem_singleton] at hx
            subst hx
            omega
      obtain ⟨g1, g2, g3⟩ := ih (step s op) (by rw [hn]; omega) hch2 hbd2
      have hrun : run s (op :: ops) = run (step s op) ops := rfl
      rw [hrun]
      exact ⟨by rw [g1, hn, hsplit]; omega, g2, g3⟩

theorem run_replicate_sendMsg : ∀ (n : Nat) (s : UDPNetworkState), s.running = true →
    s.nextSeqNumber < 4294967296 →
    (run s (List.replicate n (.sendMsg [0]))).out =
      s.out ++ (List.range n).map
        (fun k => ⟨.MESSAGE, (s.nextSeqNumber + k) % 4294967296, [0]⟩) ∧
    (run s (List.replicate n (.sendMsg [0]))).running = true ∧
    (run s (List.replicate n (.sendMsg [0]))).nextSeqNumber =
      (s.nextSeqNumber + n) % 4294967296 := by
  intro n
  induction n with
  | zero =>
      intro s hrun hlt
      refine ⟨by simp [run], hrun, ?_⟩
      simp [run]
      exact (Nat.mod_eq_of_lt hlt).symm
  | succ n ih =>
      intro s hrun hlt
      rw [List.replicate_succ']
      have hsplitrun : run s (List.replicate n (.sendMsg [0]) ++ [.sendMsg [0]]) =
          step (run s (List.replicate n (.sendMsg [0]))) (.sendMsg [0]) := by
        simp [run, List.foldl_append]
      obtain ⟨g1, g2, g3⟩ := ih s hrun hlt
      rw [hsplitrun]
      have f1 : (step (run s (List.replicate n (.sendMsg [0]))) (.sendMsg [0])).out =
          (run s (List.replicate n (.sendMsg [0]))).out ++
            [⟨.MESSAGE, (run s (List.replicate n (.sendMsg [0]))).nextSeqNumber, [0]⟩] := by
        simp [step, sendMessage, g2, attachCustomHeader, MAX_PACKET_SIZE]
      have f2 : (step (run s (List.replicate n (.sendMsg [0]))) (.sendMsg [0])).running
          = true := by
        simp [step, sendMessage, g2, attachCustomHeader, MAX_PACKET_SIZE]
      have f3 : (step (run s (List.replicate n (.sendMsg [0]))) (.sendMsg [0])).nextSeqNumber
          = ((run s (List.replicate n (.sendMsg [0]))).nextSeqNumber + 1) % 4294967296 := by
        simp [step, sendMessage, g2, attachCustomHeader, MAX_PACKET_SIZE]
      refine ⟨?_, f2, ?_⟩
      · rw [f1, g1, g3, List.range_succ]
        simp [List.map_append, List.append_assoc]
      · rw [f3, g3, Nat.mod_add_mod]
        have harith : s.nextSeqNumber + n + 1 = s.nextSeqNumber + (n + 1) := by omega
        rw [harith]

theorem msgSeqs_of_allMessages (g : Nat → Nat) (n : Nat) :
    ((List.range n).map (fun k => (⟨.MESSAGE, g k, [0]⟩ : Frame))).filter
        (fun f => f.ptype == .MESSAGE) =
      (List.range n).map (fun k => (⟨.MESSAGE, g k, [0]⟩ : Frame)) := by
  apply List.filter_eq_self.mpr
  intro a ha
  obtain ⟨k, -, rfl⟩ := List.mem_map.mp ha
  rfl

/-- C8 (amended). Every outbound `MESSAGE` frame carries the sequence drawn
from the single shared counter `nextSeqNumber` at send time; a received
`MESSAGE` is acknowledged with an `ACK` that echoes the incoming sequence
rather than carrying a fresh one — but because `value_or` evaluates its
`nextSeqNumber++` argument eagerly, building that echo still consumes
(and discards) one counter value; and over a process lifetime that starts
listening and performs any sequence of transport steps, the outbound
`MESSAGE` sequence numbers are strictly increasing as long as fewer than
2^32 counter values have been consumed in total — by outbound headers and
by accepted inbound `MESSAGE` frames alike (`runAllocs` counts both) —
the amendment: the 32-bit counter wraps to 0 at the 2^32-th allocation,
see the counterexample. -/
theorem C8_sequence_monotonicity :
    (∀ (s : UDPNetworkState) (p : List Nat), s.running = true →
      16 + p.length ≤ MAX_PACKET_SIZE →
      (sendMessage s p).2.out = s.out ++ [⟨.MESSAGE, s.nextSeqNumber, p⟩] ∧
      (sendMessage s p).2.nextSeqNumber = (s.nextSeqNumber + 1) % 4294967296) ∧
    (∀ (s : UDPNetworkState) (now : Nat) (sender : String) (q : Nat) (p : List Nat),
      s.running = true → q < 4294967296 → 16 + p.length ≤ MAX_PACKET_SIZE →
      (processReceivedData s now (encodeFrame .MESSAGE q p) sender).out =
        s.out ++ [⟨.ACK, q, []⟩] ∧
      (processReceivedData s now (encodeFrame .MESSAGE q p) sender).nextSeqNumber =
        (s.nextSeqNumber + 1) % 4294967296) ∧
    (∀ ops : List TransportOp,
      runAllocs (startListening initialState) ops < 4294967296 →
      List.Chain' (· < ·) (msgSeqs (run (startListening initialState) ops))) := by
  refine ⟨?_, ?_, ?_⟩
  · intro s p hrun hfit
    have hnot : ¬(16 + p.length > MAX_PACKET_SIZE) := not_lt.mpr hfit
    constructor <;> simp [sendMessage, hrun, hnot, attachCustomHeader]
  · intro s now sender q p hrun hq hfit
    have hkey := be32val_be32 q hq
    have hp2 : 16 + p.length ≤ 65507 := hfit
    have hplen : p.length < 4294967296 := by omega
    have hkeyp := be32val_be32 p.length hplen
    have hmod : (16 + p.length) % 4294967296 = 16 + p.length :=
      Nat.mod_eq_of_lt (by omega)
    rw [encodeFrame_MESSAGE]
    simp only [List.cons_append, List.nil_append]
    simp only [processReceivedData, magic_bytes_val, version_bytes_val, hkey, hkeyp, hmod]
    simp only [hrun]
    norm_num
    constructor <;> (split <;> simp)
  · intro ops hw
    have h0 : (startListening initialState).nextSeqNumber = 0 := rfl
    have := run_seq_mono ops (startListening initialState)
      (by rw [h0]; omega) (by simp [msgSeqs, startListening, initialState])
      (by simp [msgSeqs, startListening, initialState])
    exact this.2.1

/-- Witness for C8: two messages sent from a fresh listening transport
carry strictly increasing sequences. -/
theorem C8_sequence_monotonicity_witness :
    List.Chain' (· < ·)
      (msgSeqs (run (startListening initialState)
        [TransportOp.sendMsg [0x01], TransportOp.sendMsg [0x02]])) := by
  exact C8_sequence_monotonicity.2.2
    [TransportOp.sendMsg [0x01], TransportOp.sendMsg [0x02]] (by decide)


theorem msgSeqs_replicate_run (n : Nat) :
    msgSeqs (run (startListening initialState)
        (List.replicate n (TransportOp.sendMsg [0]))) =
      (List.range n).map (fun k => k % 4294967296) := by
  obtain ⟨g1, -, -⟩ := run_replicate_sendMsg n (startListening initialState)
    rfl (by norm_num [startListening, initialState])
  unfold msgSeqs
  rw [g1]
  simp only [startListening, initialState, List.nil_append, Nat.zero_add]
  rw [msgSeqs_of_allMessages (fun k => k % 4294967296) n, List.map_map]
  congr 1

set_option linter.constructorNameAsVariable false in
/-- Counterexample to C8 as stated: after the shared 32-bit counter has
been consumed 2^32 times, it wraps: in the process lifetime that starts
listening and then sends 2^32 + 1 messages, the outbound MESSAGE sequence
numbers are `0, 1, ..., 2^32 - 1, 0` — not strictly increasing. -/
theorem C8_wraparound_counterexample :
    ¬ List.Chain' (· < ·)
      (msgSeqs (run (startListening initialState)
        (List.replicate 4294967297 (TransportOp.sendMsg [0])))) := by
  intro hchain
  rw [msgSeqs_replicate_run 4294967297] at hchain
  have e1 : List.range 4294967297 = List.range 4294967296 ++ [4294967296] := by
    rw [show (4294967297 : Nat) = 4294967296 + 1 from by norm_num]
    exact List.range_succ 4294967296
  have e2 : List.range 4294967296 = List.range 4294967295 ++ [4294967295] := by
    rw [show (4294967296 : Nat) = 4294967295 + 1 from by norm_num]
    exact List.range_succ 4294967295
  rw [e1, e2, List.map_append, List.map_append, List.append_assoc] at hchain
  have h2 := hchain.right_of_append
  simp only [List.map_cons, List.map_nil, List.singleton_append] at h2
  rw [List.chain'_pair] at h2
  norm_num at h2

end PeerBridge
